import Mathlib

/-!
# Emoji ranking bot — verification of the counting and ranking pipeline

Shallow embedding of `src/bot.py` (a Discord bot that tallies emoji usage
across a server's text channels and renders a leaderboard plus an
"underused custom emoji" report).

Modelling choices, stated once here:

* Emoji keys in the Python code are strings: either a Unicode emoji
  grapheme cluster (from `emoji.emoji_list`) or the rendered form
  `str(discord.PartialEmoji)` of a custom emoji, which is
  `<:name:id>` / `<a:name:id>`.  Since the name characters matched by the
  bot's regex (`[\w~]+`) never contain `:` or `>`, and a Unicode emoji
  never starts with `<`, this string key space is in bijection with the
  disjoint union modelled by the inductive type `EmojiKey` below; we use
  `EmojiKey` as the key type of counters.
* `collections.Counter` is an insertion-ordered dict; it is modelled as an
  association list with unique keys where `counts[k] += n` updates an
  existing entry in place and appends a fresh key at the end.
* The Discord API (channel history pagination, permission introspection,
  reaction tallies, the guild emoji registry) is a collaborator: a guild
  is modelled as the data the API would hand the bot for one scan — the
  readable flag per channel, the message list the history iterator yields
  for the command's cutoff, each message's text-scan results and reaction
  tallies, and the current custom-emoji registry.
* The two external tokenizers (`emoji.emoji_list` and the regex
  `<a?:[\w~]+:(\d+)>`) are collaborators as well: a message's content is
  modelled as the two match lists they produce.
* Sending a Discord message and starting a history scan are the
  observable effects of a command; a command is modelled as the list of
  these events in program order.
-/

/-- A custom (server-specific) emoji: animation flag, mutable display
name, numeric id.  This is the data both `discord.PartialEmoji` (when
custom) and a registry `discord.Emoji` expose for rendering. -/
structure CustomEmoji where
  animated : Bool
  name : String
  id : Nat
deriving DecidableEq, Repr

/-- The canonical emoji-key string space of the bot, as a disjoint union:
`unicode s` stands for the grapheme-cluster string `s`; `custom e` stands
for the rendered string `str(PartialEmoji)`, i.e. `<:name:id>` or
`<a:name:id>`.  The rendering is injective, so equality of keys here is
equality of the Python key strings. -/
inductive EmojiKey where
  | unicode (s : String)
  | custom (e : CustomEmoji)
deriving DecidableEq, Repr

/-- `discord.PartialEmoji`: `id = none` marks a standard (Unicode) emoji. -/
structure PartialEmoji where
  name : String
  id : Option Nat
  animated : Bool
deriving DecidableEq, Repr

/-- Whether a character is allowed in a custom-emoji name by
discord.py's parse pattern `[A-Za-z0-9_]+` — ASCII only, strictly
narrower than the `[\w~]+` of the bot's extraction regex. -/
def isParseNameChar (c : Char) : Bool :=
  c.isAlphanum || c == '_'

/-- Whether the rendered token `<a?:name:id>` matches discord.py's
`_CUSTOM_EMOJI_RE`: a nonempty name of `[A-Za-z0-9_]` characters and an
id of 13–20 decimal digits, i.e. `10^12 ≤ id < 10^20`. -/
def parsesAsCustom (e : CustomEmoji) : Bool :=
  !e.name.data.isEmpty && e.name.data.all isParseNameChar
    && decide (10 ^ 12 ≤ e.id) && decide (e.id < 10 ^ 20)

/-- `str(PartialEmoji)` for a custom emoji, which is also the raw token
text: `<a:name:id>` when animated, else `<:name:id>`. -/
def customEmojiStr (e : CustomEmoji) : String :=
  (if e.animated then "<a:" else "<:") ++ e.name ++ ":" ++ toString e.id ++ ">"

/-- `discord.PartialEmoji.from_str` applied to a canonical key string:
a custom token is parsed into its three fields only when it matches the
library's `_CUSTOM_EMOJI_RE` (ASCII name, 13–20-digit id); a custom
token outside that pattern — possible, since the bot's extraction regex
`<a?:[\w~]+:(\d+)>` admits `~`, non-ASCII word characters and ids of any
length — and any Unicode key fall back to a name-only `PartialEmoji`
carrying the whole raw string and no id. -/
def PartialEmoji.from_str : EmojiKey → PartialEmoji
  | .unicode s => ⟨s, none, false⟩
  | .custom e =>
    if parsesAsCustom e then ⟨e.name, some e.id, e.animated⟩
    else ⟨customEmojiStr e, none, false⟩

/-- `discord.PartialEmoji.is_custom_emoji`: whether an id is present. -/
def PartialEmoji.is_custom_emoji (p : PartialEmoji) : Bool :=
  p.id.isSome

/-- `collections.Counter[str]` keyed by canonical emoji keys: an
insertion-ordered association list with unique keys. -/
abbrev Counter := List (EmojiKey × Nat)

namespace Counter

/-- `counts.get(k, 0)` / the count a `Counter` maps `k` to (0 if absent). -/
def find : Counter → EmojiKey → Nat
  | [], _ => 0
  | (k, v) :: rest, k' => if k' = k then v else find rest k'

/-- `counts[k] += n` on an insertion-ordered dict: update the existing
entry in place, or append `(k, n)` at the end when `k` is absent. -/
def incr : Counter → EmojiKey → Nat → Counter
  | [], k, n => [(k, n)]
  | (k', v) :: rest, k, n =>
    if k = k' then (k', v + n) :: rest else (k', v) :: incr rest k n

end Counter

/-- A message's text as the two tokenizers see it: the list of Unicode
emoji matches returned by `emoji.emoji_list(content)` (in text order) and
the list of custom-emoji markup matches of `<a?:[\w~]+:(\d+)>` (in text
order), each carrying the animation flag, name and numeric id that
`discord.PartialEmoji.from_str` extracts from the matched token. -/
structure MessageContent where
  unicodeEmojis : List String
  customMatches : List CustomEmoji
deriving DecidableEq, Repr

/-- `extract_emoji_counts_from_text` (src/bot.py:65–76): count each
Unicode match under its grapheme string, then each custom-markup match
under `str(PartialEmoji.from_str(match))`, i.e. the rendered token
including its display name. -/
def extract_emoji_counts_from_text (content : MessageContent) : Counter :=
  let counts := content.unicodeEmojis.foldl
    (fun counts s => Counter.incr counts (.unicode s) 1) []
  content.customMatches.foldl
    (fun counts e => Counter.incr counts (.custom e) 1) counts

/-- `merge_counts` (src/bot.py:79–81): `target[key] += value` for every
item of `source`, in `source`'s insertion order. -/
def merge_counts (target source : Counter) : Counter :=
  source.foldl (fun t p => Counter.incr t p.1 p.2) target

/-- One reaction entry on a message: its emoji (as `str(reaction.emoji)`
renders it, with the emoji's current display name) and its aggregate
tally `reaction.count`. -/
structure Reaction where
  emoji : EmojiKey
  count : Nat
deriving DecidableEq, Repr

/-- One message as the scan sees it: its text-scan results and its
reaction list. -/
structure Message where
  content : MessageContent
  reactions : List Reaction
deriving DecidableEq, Repr

/-- The loop body of `collect_emoji_counts` for one message
(src/bot.py:90–95): merge the text counts, then add each reaction's
tally under that reaction's emoji key. -/
def processMessage (counts : Counter) (message : Message) : Counter :=
  let counts := merge_counts counts (extract_emoji_counts_from_text message.content)
  message.reactions.foldl
    (fun counts r => Counter.incr counts r.emoji r.count) counts

/-- Processing a list of messages in order, accumulating into `init`. -/
def process_messages (init : Counter) (messages : List Message) : Counter :=
  messages.foldl processMessage init

/-- One text channel as the scan sees it: whether
`channel.permissions_for(guild.me).read_messages` holds, and the messages
`channel.history(limit=None, after=since, oldest_first=True)` yields for
the command's cutoff (oldest first). -/
structure Channel where
  canRead : Bool
  messages : List Message
deriving DecidableEq, Repr

/-- A guild (server) for one scan: its text channels and its current
custom-emoji registry `guild.emojis`. -/
structure Guild where
  channels : List Channel
  emojis : List CustomEmoji
deriving DecidableEq, Repr

/-- `guild.get_emoji(id)`: look a custom emoji up by numeric id in the
guild's current registry. -/
def Guild.get_emoji (g : Guild) (id : Nat) : Option CustomEmoji :=
  g.emojis.find? (fun e => e.id = id)

/-- `collect_emoji_counts` (src/bot.py:84–100): fold over the guild's
text channels, skipping unreadable ones, processing each readable
channel's messages oldest-first. -/
def collect_emoji_counts (channels : List Channel) : Counter :=
  channels.foldl
    (fun counts ch => if ch.canRead then ch.messages.foldl processMessage counts else counts)
    []

/-- The per-key body of `resolve_emojis` (src/bot.py:105–111): parse the
key; for a custom key with a truthy (nonzero) id found in the registry,
render the registry entry's current form; otherwise fall back to the raw
key. -/
def resolve_one (g : Guild) (key : EmojiKey) : EmojiKey :=
  let pe := PartialEmoji.from_str key
  if pe.is_custom_emoji then
    let emoji_obj : Option CustomEmoji :=
      match pe.id with
      | some i => if i ≠ 0 then g.get_emoji i else none
      | none => none
    match emoji_obj with
    | some e => .custom e
    | none => key
  else key

/-- `resolve_emojis` (src/bot.py:103–112): build the parallel label list
by appending the resolution of each key in order. -/
def resolve_emojis (g : Guild) (keys : List EmojiKey) : List EmojiKey :=
  keys.foldl (fun resolved key => resolved ++ [resolve_one g key]) []

/-- `TIMEFRAME_LABELS` (src/bot.py:15–20): label ↦ lookback in days, with
`none` for the unbounded "전체" (all-time) timeframe. -/
def TIMEFRAME_LABELS : List (String × Option Nat) :=
  [("1주", some 7), ("1개월", some 30), ("3개월", some 90), ("전체", none)]

/-- The label set of `TIMEFRAME_LABELS` (what `기간 in TIMEFRAME_LABELS`
tests). -/
def TIMEFRAME_KEYS : List String :=
  TIMEFRAME_LABELS.map Prod.fst

/-- Python's `str.strip()`: remove whitespace from both ends, modelled
on the character list. -/
def pyStrip (s : String) : String :=
  ⟨((s.data.dropWhile Char.isWhitespace).reverse.dropWhile Char.isWhitespace).reverse⟩

/-- `parse_timeframe` (src/bot.py:37–39): strip surrounding whitespace,
then `TIMEFRAME_LABELS.get(cleaned)` — `none` both for an unknown label
and for the all-time label. -/
def parse_timeframe (label : String) : Option Nat :=
  (TIMEFRAME_LABELS.find? (fun p => p.1 = pyStrip label)).bind Prod.snd

/-- Stable descending insertion by count: place `p` before the first
entry whose count is ≤ `p`'s (so an earlier-discovered entry precedes
later entries of equal count). -/
def insertDesc (p : EmojiKey × Nat) : Counter → Counter
  | [] => [p]
  | q :: rest => if q.2 ≤ p.2 then p :: q :: rest else q :: insertDesc p rest

/-- Stable sort by count descending (ties keep insertion order). -/
def sortDesc : Counter → Counter
  | [] => []
  | p :: rest => insertDesc p (sortDesc rest)

/-- `Counter.most_common(n)` from the Python standard library:
`heapq.nlargest(n, items, key=itemgetter(1))`, documented as equivalent
to `sorted(items, key=count, reverse=True)[:n]` with ties ordered as
first encountered — a stable descending sort truncated to `n`. -/
def most_common (c : Counter) (n : Nat) : Counter :=
  (sortDesc c).take n

/-- The distinct fixed replies the two commands send (src/bot.py sends
each as one Korean string; they are pairwise distinct, so tags suffice),
with the data-carrying replies keeping their payload. -/
inductive OutMsg where
  /-- "사용 가능한 기간 옵션: 1주, 1개월, 3개월, 전체" (src/bot.py:122). -/
  | usage
  /-- "이모지 데이터를 모으는 중입니다..." progress reply (src/bot.py:129). -/
  | collecting
  /-- "아직 사용된 이모지가 없습니다." (src/bot.py:133). -/
  | noData
  /-- The leaderboard chart built from the labelled top-20 pairs
  (src/bot.py:138–142). -/
  | chart (pairs : List (EmojiKey × Nat))
  /-- "지난 30일 동안 5회 미만으로 사용된 이모지가 없습니다." (src/bot.py:154). -/
  | noneFound
  /-- The underused-emoji list reply with its resolved labels
  (src/bot.py:158). -/
  | underusedList (labels : List EmojiKey)
  /-- "이 명령어는 관리자 전용입니다." (src/bot.py:164). -/
  | adminOnly
deriving DecidableEq, Repr

/-- An observable effect of a command: sending a reply, or starting the
channel-history scan (`collect_emoji_counts` being entered). -/
inductive Event where
  | sent (m : OutMsg)
  | scanStarted
deriving DecidableEq, Repr

/-- `emoji_leaderboard` (src/bot.py:118–142) as its event trace:
`parse_timeframe` runs first (no observable effect), the raw argument is
tested for membership in `TIMEFRAME_LABELS` — failure sends the usage
reply and returns before any scan — then the progress reply is sent, the
scan runs, and either the no-data reply or the chart of the resolved
top-20 pairs is sent. -/
def emoji_leaderboard (g : Guild) (label : String) : List Event :=
  if ¬ label ∈ TIMEFRAME_KEYS then [Event.sent OutMsg.usage]
  else
    let counts := collect_emoji_counts g.channels
    let rest :=
      if counts = [] then [Event.sent OutMsg.noData]
      else
        let top_20 := most_common counts 20
        let labels := resolve_emojis g (top_20.map Prod.fst)
        let labelled_pairs := labels.zip (top_20.map Prod.snd)
        [Event.sent (OutMsg.chart labelled_pairs)]
    Event.sent OutMsg.collecting :: Event.scanStarted :: rest

/-- The registered custom emoji whose scanned count is below 5
(src/bot.py:151–152): keys are `str(emoji_obj)` over `ctx.guild.emojis`,
filtered by `counts.get(key, 0) < 5`. -/
def underused_keys (g : Guild) : List EmojiKey :=
  (g.emojis.map EmojiKey.custom).filter
    (fun key => Counter.find (collect_emoji_counts g.channels) key < 5)

/-- The body of `underused_emojis` (src/bot.py:147–158): run the 30-day
scan (the cutoff is folded into each channel's message list), filter the
registered custom emoji by count < 5, and send either the none-found
reply or the resolved list. -/
def underused_emojis_body (g : Guild) : List Event :=
  Event.scanStarted ::
    (if underused_keys g = [] then [Event.sent OutMsg.noneFound]
     else [Event.sent (OutMsg.underusedList (resolve_emojis g (underused_keys g)))])

/-- Invoking the `미사용이모지` command: the
`commands.has_permissions(manage_emojis=True)` check (src/bot.py:146)
runs before the callback; on failure the framework raises
`MissingPermissions` and the error handler (src/bot.py:161–164) sends the
admin-only reply, so the body — and with it the scan — never runs. -/
def underused_invoke (g : Guild) (has_manage_emojis : Bool) : List Event :=
  if has_manage_emojis then underused_emojis_body g
  else [Event.sent OutMsg.adminOnly]

/-- The total weight a pair list carries for key `k` (specification-side
sum used to characterise the folds of `Counter.incr`). -/
def sumCounts (ps : List (EmojiKey × Nat)) (k : EmojiKey) : Nat :=
  (ps.map (fun p => if k = p.1 then p.2 else 0)).sum

/-- The total tally a reaction list carries for key `k`. -/
def reactionSum (rs : List Reaction) (k : EmojiKey) : Nat :=
  (rs.map (fun r => if k = r.emoji then r.count else 0)).sum

/-- How much one message contributes to key `k`: its text-scan counts
plus its reaction tallies for `k`. -/
def msgDelta (m : Message) (k : EmojiKey) : Nat :=
  sumCounts (extract_emoji_counts_from_text m.content) k + reactionSum m.reactions k

/-- A message with no emoji in its text and no reactions. -/
def emptyMessage : Message :=
  ⟨⟨[], []⟩, []⟩

theorem Counter.find_incr (c : Counter) (j : EmojiKey) (n : Nat) (k : EmojiKey) :
    (Counter.incr c j n).find k = c.find k + (if k = j then n else 0) := by
  induction c with
  | nil =>
    by_cases h : k = j <;> simp [Counter.incr, Counter.find, h]
  | cons p rest ih =>
    obtain ⟨k', v⟩ := p
    by_cases hj : j = k'
    · subst hj
      by_cases hk : k = j <;> simp [Counter.incr, Counter.find, hk]
    · simp only [Counter.incr, if_neg hj, Counter.find]
      by_cases hk : k = k'
      · subst hk
        have : ¬ k = j := fun h => hj h.symm
        simp [this]
      · simp [hk, ih]

theorem Counter.find_foldl_incr (ps : List (EmojiKey × Nat)) (t : Counter) (k : EmojiKey) :
    (ps.foldl (fun t p => Counter.incr t p.1 p.2) t).find k = t.find k + sumCounts ps k := by
  induction ps generalizing t with
  | nil => simp [sumCounts]
  | cons p rest ih =>
    simp only [List.foldl_cons, ih, Counter.find_incr, sumCounts, List.map_cons, List.sum_cons]
    simp only [sumCounts] at *
    omega

theorem Counter.find_merge_counts (t s : Counter) (k : EmojiKey) :
    (merge_counts t s).find k = t.find k + sumCounts s k :=
  Counter.find_foldl_incr s t k

theorem Counter.find_foldl_reactions (rs : List Reaction) (t : Counter) (k : EmojiKey) :
    (rs.foldl (fun c r => Counter.incr c r.emoji r.count) t).find k
      = t.find k + reactionSum rs k := by
  induction rs generalizing t with
  | nil => simp [reactionSum]
  | cons r rest ih =>
    simp only [List.foldl_cons, ih, Counter.find_incr, reactionSum, List.map_cons, List.sum_cons]
    simp only [reactionSum] at *
    omega

theorem processMessage_find (c : Counter) (m : Message) (k : EmojiKey) :
    (processMessage c m).find k = c.find k + msgDelta m k := by
  simp only [processMessage, msgDelta, Counter.find_foldl_reactions, Counter.find_merge_counts]
  omega

theorem process_messages_find (ms : List Message) (c : Counter) (k : EmojiKey) :
    (process_messages c ms).find k = c.find k + (ms.map (fun m => msgDelta m k)).sum := by
  induction ms generalizing c with
  | nil => simp [process_messages]
  | cons m rest ih =>
    simp only [process_messages, List.foldl_cons] at *
    rw [ih, processMessage_find]
    simp only [List.map_cons, List.sum_cons]
    omega

theorem collect_fold_eq (channels : List Channel) (init : Counter) :
    channels.foldl
      (fun counts ch => if ch.canRead then ch.messages.foldl processMessage counts else counts)
      init
      = ((channels.filter (fun ch => ch.canRead)).map Channel.messages).flatten.foldl
          processMessage init := by
  induction channels generalizing init with
  | nil => rfl
  | cons ch rest ih =>
    cases hc : ch.canRead with
    | true => simp [hc, ih, List.foldl_append]
    | false => simp [hc, ih]

theorem collect_eq_process_join (channels : List Channel) :
    collect_emoji_counts channels
      = process_messages [] ((channels.filter (fun ch => ch.canRead)).map Channel.messages).flatten :=
  collect_fold_eq channels []

theorem insertDesc_perm (p : EmojiKey × Nat) (l : Counter) :
    (insertDesc p l).Perm (p :: l) := by
  induction l with
  | nil => exact List.Perm.refl _
  | cons q rest ih =>
    by_cases h : q.2 ≤ p.2
    · simp [insertDesc, h]
    · simp only [insertDesc, if_neg h]
      exact (ih.cons q).trans (List.Perm.swap p q rest)

theorem sortDesc_perm (c : Counter) : (sortDesc c).Perm c := by
  induction c with
  | nil => exact List.Perm.refl _
  | cons p rest ih => exact (insertDesc_perm p (sortDesc rest)).trans (ih.cons p)

theorem insertDesc_pairwise (p : EmojiKey × Nat) (l : Counter)
    (h : List.Pairwise (fun a b => b.2 ≤ a.2) l) :
    List.Pairwise (fun a b => b.2 ≤ a.2) (insertDesc p l) := by
  induction l with
  | nil => simp [insertDesc]
  | cons q rest ih =>
    obtain ⟨hq, hrest⟩ := List.pairwise_cons.mp h
    by_cases hle : q.2 ≤ p.2
    · simp only [insertDesc, if_pos hle]
      refine List.pairwise_cons.mpr ⟨?_, h⟩
      intro x hx
      rcases List.mem_cons.mp hx with rfl | hx'
      · exact hle
      · exact le_trans (hq x hx') hle
    · simp only [insertDesc, if_neg hle]
      refine List.pairwise_cons.mpr ⟨?_, ih hrest⟩
      intro x hx
      rcases List.mem_cons.mp ((insertDesc_perm p rest).mem_iff.mp hx) with rfl | hx'
      · exact Nat.le_of_lt (Nat.lt_of_not_le hle)
      · exact hq x hx'

theorem sortDesc_pairwise (c : Counter) :
    List.Pairwise (fun a b => b.2 ≤ a.2) (sortDesc c) := by
  induction c with
  | nil => simp [sortDesc]
  | cons p rest ih => exact insertDesc_pairwise p (sortDesc rest) ih

theorem insertDesc_of_le (p : EmojiKey × Nat) (l : Counter) (h : ∀ x ∈ l, x.2 ≤ p.2) :
    insertDesc p l = p :: l := by
  cases l with
  | nil => rfl
  | cons q rest => simp [insertDesc, h q (List.mem_cons_self q rest)]

theorem sortDesc_of_sorted (c : Counter)
    (h : List.Pairwise (fun a b => b.2 ≤ a.2) c) : sortDesc c = c := by
  induction c with
  | nil => rfl
  | cons p rest ih =>
    obtain ⟨hp, hrest⟩ := List.pairwise_cons.mp h
    simp only [sortDesc]
    rw [ih hrest, insertDesc_of_le p rest hp]

theorem resolve_emojis_eq_map (g : Guild) (keys : List EmojiKey) :
    resolve_emojis g keys = keys.map (resolve_one g) := by
  suffices h : ∀ acc, keys.foldl (fun resolved key => resolved ++ [resolve_one g key]) acc
      = acc ++ keys.map (resolve_one g) by
    simpa using h []
  induction keys with
  | nil => intro acc; simp
  | cons k rest ih => intro acc; simp [List.foldl_cons, ih]

theorem insertDesc_filter (n : Nat) (p : EmojiKey × Nat) (l : Counter) :
    (insertDesc p l).filter (fun q => q.2 = n)
      = (p :: l).filter (fun q => q.2 = n) := by
  induction l with
  | nil => rfl
  | cons q rest ih =>
    by_cases hle : q.2 ≤ p.2
    · simp [insertDesc, hle]
    · have hq : ¬ q.2 = n ∨ ¬ p.2 = n := by
        by_cases hpn : p.2 = n
        · left; omega
        · right; exact hpn
      simp only [insertDesc, if_neg hle]
      by_cases hqn : q.2 = n <;> by_cases hpn : p.2 = n <;>
        simp_all [List.filter_cons]

theorem sortDesc_filter (n : Nat) (c : Counter) :
    (sortDesc c).filter (fun q => q.2 = n) = c.filter (fun q => q.2 = n) := by
  induction c with
  | nil => rfl
  | cons p rest ih =>
    simp only [sortDesc]
    rw [insertDesc_filter]
    by_cases hpn : p.2 = n <;> simp [List.filter_cons, hpn, ih]

/-- C1 (counterexample): the claim is false on the code.  Two occurrences
of the same custom emoji (numeric id 123) written with different display
names are counted by `extract_emoji_counts_from_text` under two distinct
keys, with count 1 each — the count IS split across keys, because the key
`str(PartialEmoji.from_str(...))` includes the display name. -/
theorem C1_counterexample :
    extract_emoji_counts_from_text ⟨[], [⟨false, "wave", 123⟩, ⟨false, "hello", 123⟩]⟩
      = [(EmojiKey.custom ⟨false, "wave", 123⟩, 1),
         (EmojiKey.custom ⟨false, "hello", 123⟩, 1)]
    ∧ EmojiKey.custom ⟨false, "wave", 123⟩ ≠ EmojiKey.custom ⟨false, "hello", 123⟩ := by
  constructor
  · rfl
  · decide

/-- C1 (amended): occurrences of a custom emoji are keyed by the full
rendered token including the display name.  Two occurrences with the same
animation flag, display name and numeric id — whether from message text
or from a reaction — accumulate under one identical key, but two
occurrences with the same numeric id and different display names are
counted under different keys (a server-side rename splits the count). -/
theorem C1_custom_emoji_keying (e1 e2 : CustomEmoji) (n : Nat)
    (_hid : e1.id = e2.id) (hname : e1.name ≠ e2.name) :
    processMessage [] ⟨⟨[], [e1, e1]⟩, [⟨EmojiKey.custom e1, n⟩]⟩
      = [(EmojiKey.custom e1, 2 + n)]
    ∧ extract_emoji_counts_from_text ⟨[], [e1, e2]⟩
      = [(EmojiKey.custom e1, 1), (EmojiKey.custom e2, 1)] := by
  have hne : (EmojiKey.custom e2 = EmojiKey.custom e1) ↔ False := by
    constructor
    · intro h
      exact hname (congrArg CustomEmoji.name (EmojiKey.custom.inj h)).symm
    · exact False.elim
  constructor
  · simp [processMessage, extract_emoji_counts_from_text, merge_counts, Counter.incr]
  · simp [extract_emoji_counts_from_text, Counter.incr, hne]

theorem C1_custom_emoji_keying_witness :
    (⟨false, "wave", 123⟩ : CustomEmoji).id = (⟨false, "hello", 123⟩ : CustomEmoji).id
    ∧ (⟨false, "wave", 123⟩ : CustomEmoji).name ≠ (⟨false, "hello", 123⟩ : CustomEmoji).name
    ∧ processMessage [] ⟨⟨[], [⟨false, "wave", 123⟩, ⟨false, "wave", 123⟩]⟩,
        [⟨EmojiKey.custom ⟨false, "wave", 123⟩, 4⟩]⟩
        = [(EmojiKey.custom ⟨false, "wave", 123⟩, 2 + 4)]
    ∧ extract_emoji_counts_from_text ⟨[], [⟨false, "wave", 123⟩, ⟨false, "hello", 123⟩]⟩
        = [(EmojiKey.custom ⟨false, "wave", 123⟩, 1),
           (EmojiKey.custom ⟨false, "hello", 123⟩, 1)] := by
  refine ⟨rfl, by decide, ?_, ?_⟩
  · exact (C1_custom_emoji_keying ⟨false, "wave", 123⟩ ⟨false, "hello", 123⟩ 4
      rfl (by decide)).1
  · exact (C1_custom_emoji_keying ⟨false, "wave", 123⟩ ⟨false, "hello", 123⟩ 4
      rfl (by decide)).2

/-- C2: for every counter state, message and key, processing the message
in `collect_emoji_counts` raises the key's count by the message's
text-scan weight for that key plus the sum of the tallies of the
reactions carrying that key — each reaction contributes its full
aggregate tally `reaction.count`, not 1.  In particular a Unicode emoji
occurring once inline in a message's text and again as a reaction with
tally `n` contributes `1 + n`, both sources counted with no
deduplication. -/
theorem C2_reaction_tally_added (c : Counter) (m : Message) (k : EmojiKey) :
    (processMessage c m).find k
      = c.find k + sumCounts (extract_emoji_counts_from_text m.content) k
          + reactionSum m.reactions k
    ∧ ∀ (s : String) (n : Nat),
        (processMessage c ⟨⟨[s], []⟩, [⟨EmojiKey.unicode s, n⟩]⟩).find (EmojiKey.unicode s)
          = c.find (EmojiKey.unicode s) + 1 + n := by
  constructor
  · have h := processMessage_find c m k
    simp only [msgDelta] at h
    omega
  · intro s n
    have h := processMessage_find c ⟨⟨[s], []⟩, [⟨EmojiKey.unicode s, n⟩]⟩ (EmojiKey.unicode s)
    simp [msgDelta, extract_emoji_counts_from_text, Counter.incr, sumCounts,
      reactionSum] at h
    omega

theorem C2_reaction_tally_added_witness :
    (processMessage [] ⟨⟨["😀"], []⟩, [⟨EmojiKey.unicode "😀", 3⟩]⟩).find
        (EmojiKey.unicode "😀")
      = Counter.find [] (EmojiKey.unicode "😀") + 1 + 3 :=
  (C2_reaction_tally_added [] ⟨⟨["😀"], []⟩, [⟨EmojiKey.unicode "😀", 3⟩]⟩
    (EmojiKey.unicode "😀")).2 "😀" 3

/-- C3: the leaderboard's ranked list `most_common counts 20` is the
counter's entries sorted by count descending, stably (entries of equal
count keep their insertion order, and an already-descending counter is
left unchanged), truncated to at most 20 entries; in particular for a
counter whose counts are (weakly, hence also strictly) decreasing the
result is exactly its first 20 entries in order. -/
theorem C3_leaderboard_ranking (c : Counter)
    (h : List.Pairwise (fun a b : EmojiKey × Nat => b.2 ≤ a.2) c) :
    most_common c 20 = c.take 20
    ∧ ∀ d : Counter,
        (sortDesc d).Perm d
        ∧ List.Pairwise (fun a b : EmojiKey × Nat => b.2 ≤ a.2) (sortDesc d)
        ∧ (∀ n : Nat, (sortDesc d).filter (fun q => q.2 = n)
            = d.filter (fun q => q.2 = n))
        ∧ (most_common d 20).length ≤ 20 := by
  constructor
  · simp [most_common, sortDesc_of_sorted c h]
  · intro d
    refine ⟨sortDesc_perm d, sortDesc_pairwise d, fun n => sortDesc_filter n d, ?_⟩
    simp only [most_common, List.length_take]
    exact Nat.min_le_left _ _

theorem C3_leaderboard_ranking_witness :
    List.Pairwise (fun a b : EmojiKey × Nat => b.2 ≤ a.2)
      ((List.range 25).map (fun i => (EmojiKey.unicode (toString i), 25 - i)))
    ∧ most_common ((List.range 25).map (fun i => (EmojiKey.unicode (toString i), 25 - i))) 20
        = ((List.range 25).map (fun i => (EmojiKey.unicode (toString i), 25 - i))).take 20 :=
  ⟨by decide,
   (C3_leaderboard_ranking
     ((List.range 25).map (fun i => (EmojiKey.unicode (toString i), 25 - i)))
     (by decide)).1⟩

/-- C4: the underused-emoji report ranges over every custom emoji
currently registered on the server: an emoji with count 0 (never seen in
the scan) qualifies, a registered emoji is reported exactly when its
scanned count is strictly below 5, and when no registered emoji
qualifies the command sends the fixed none-found reply instead of an
empty list. -/
theorem C4_underused_report (g : Guild) :
    (∀ e ∈ g.emojis,
        Counter.find (collect_emoji_counts g.channels) (EmojiKey.custom e) < 5
          ↔ EmojiKey.custom e ∈ underused_keys g)
    ∧ (∀ e ∈ g.emojis,
        Counter.find (collect_emoji_counts g.channels) (EmojiKey.custom e) = 0 →
          EmojiKey.custom e ∈ underused_keys g)
    ∧ (underused_keys g = [] →
        underused_emojis_body g = [Event.scanStarted, Event.sent OutMsg.noneFound])
    ∧ (underused_keys g ≠ [] →
        underused_emojis_body g
          = [Event.scanStarted,
             Event.sent (OutMsg.underusedList (resolve_emojis g (underused_keys g)))]) := by
  have hmem : ∀ e ∈ g.emojis,
      Counter.find (collect_emoji_counts g.channels) (EmojiKey.custom e) < 5
        ↔ EmojiKey.custom e ∈ underused_keys g := by
    intro e he
    constructor
    · intro hlt
      exact List.mem_filter.mpr ⟨List.mem_map_of_mem _ he, by simpa using hlt⟩
    · intro hm
      simpa using (List.mem_filter.mp hm).2
  refine ⟨hmem, ?_, ?_, ?_⟩
  · intro e he hzero
    exact (hmem e he).mp (by omega)
  · intro h
    simp [underused_emojis_body, h]
  · intro h
    simp [underused_emojis_body, h]

theorem C4_underused_report_witness :
    underused_keys (Guild.mk [] [⟨false, "pepe", 1099511627776⟩]) ≠ []
    ∧ underused_emojis_body (Guild.mk [] [⟨false, "pepe", 1099511627776⟩])
        = [Event.scanStarted,
           Event.sent (OutMsg.underusedList
             (resolve_emojis (Guild.mk [] [⟨false, "pepe", 1099511627776⟩])
               (underused_keys (Guild.mk [] [⟨false, "pepe", 1099511627776⟩]))))] :=
  ⟨by decide, (C4_underused_report (Guild.mk [] [⟨false, "pepe", 1099511627776⟩])).2.2.2
    (by decide)⟩

/-- C5: a caller of the underused-emoji command without the
manage-emoji capability gets exactly the fixed admin-only rejection
reply, and the history scan never starts — the capability check precedes
the command body. -/
theorem C5_capability_gate (g : Guild) (has_manage_emojis : Bool)
    (h : has_manage_emojis = false) :
    underused_invoke g has_manage_emojis = [Event.sent OutMsg.adminOnly]
    ∧ Event.scanStarted ∉ underused_invoke g has_manage_emojis := by
  subst h
  refine ⟨by simp [underused_invoke], ?_⟩
  simp [underused_invoke]

theorem C5_capability_gate_witness :
    (false = false)
    ∧ underused_invoke (Guild.mk [⟨true, [⟨⟨["😀"], []⟩, []⟩]⟩] []) false
        = [Event.sent OutMsg.adminOnly] :=
  ⟨rfl, (C5_capability_gate (Guild.mk [⟨true, [⟨⟨["😀"], []⟩, []⟩]⟩] []) false rfl).1⟩

/-- C6: a leaderboard invocation whose raw timeframe argument is not in
the fixed label set gets exactly the usage-error reply — no scan event —
while for every member of the set no usage error is sent and the scan
starts. -/
theorem C6_timeframe_membership (g : Guild) (label : String) :
    (label ∉ TIMEFRAME_KEYS → emoji_leaderboard g label = [Event.sent OutMsg.usage])
    ∧ (label ∈ TIMEFRAME_KEYS →
        Event.sent OutMsg.usage ∉ emoji_leaderboard g label
        ∧ Event.scanStarted ∈ emoji_leaderboard g label) := by
  constructor
  · intro h
    simp [emoji_leaderboard, h]
  · intro h
    by_cases hc : collect_emoji_counts g.channels = [] <;>
      simp [emoji_leaderboard, h, hc]

theorem C6_timeframe_membership_witness :
    ("1week" ∉ TIMEFRAME_KEYS)
    ∧ emoji_leaderboard (Guild.mk [] []) "1week" = [Event.sent OutMsg.usage]
    ∧ ("전체" ∈ TIMEFRAME_KEYS)
    ∧ Event.scanStarted ∈ emoji_leaderboard (Guild.mk [] []) "전체" :=
  ⟨by decide, (C6_timeframe_membership (Guild.mk [] []) "1week").1 (by decide),
   by decide, ((C6_timeframe_membership (Guild.mk [] []) "전체").2 (by decide)).2⟩

/-- C7: a leaderboard invocation with a valid timeframe whose scan
produces an empty frequency map sends the progress reply, runs the scan,
sends the fixed no-data reply, and renders no chart. -/
theorem C7_empty_map_reply (g : Guild) (label : String)
    (hmem : label ∈ TIMEFRAME_KEYS)
    (hempty : collect_emoji_counts g.channels = []) :
    emoji_leaderboard g label
      = [Event.sent OutMsg.collecting, Event.scanStarted, Event.sent OutMsg.noData]
    ∧ ∀ pairs, Event.sent (OutMsg.chart pairs) ∉ emoji_leaderboard g label := by
  have hmain : emoji_leaderboard g label
      = [Event.sent OutMsg.collecting, Event.scanStarted, Event.sent OutMsg.noData] := by
    simp [emoji_leaderboard, hmem, hempty]
  refine ⟨hmain, ?_⟩
  intro pairs
  rw [hmain]
  simp

theorem C7_empty_map_reply_witness :
    ("전체" ∈ TIMEFRAME_KEYS)
    ∧ collect_emoji_counts (Guild.mk [⟨false, [⟨⟨["😀"], []⟩, []⟩]⟩] []).channels = []
    ∧ emoji_leaderboard (Guild.mk [⟨false, [⟨⟨["😀"], []⟩, []⟩]⟩] []) "전체"
        = [Event.sent OutMsg.collecting, Event.scanStarted, Event.sent OutMsg.noData] :=
  ⟨by decide, by decide,
   (C7_empty_map_reply (Guild.mk [⟨false, [⟨⟨["😀"], []⟩, []⟩]⟩] []) "전체"
     (by decide) (by decide)).1⟩

/-- C8 (counterexample): the claim is false on the code.  The key
`<:wa~ve:1099511627776>` — producible by the bot's extraction regex,
whose name class `[\w~]+` admits `~` — has its numeric id present in the
server's registry, yet it resolves to the raw stored key, not to the
registry's current display form: `PartialEmoji.from_str` does not parse
it as custom (its pattern allows only `[A-Za-z0-9_]+` names), so
`resolve_emojis` never performs the registry lookup. -/
theorem C8_counterexample :
    (Guild.mk [] [⟨false, "wave", 1099511627776⟩]).get_emoji
        (⟨false, "wa~ve", 1099511627776⟩ : CustomEmoji).id
      = some ⟨false, "wave", 1099511627776⟩
    ∧ resolve_emojis (Guild.mk [] [⟨false, "wave", 1099511627776⟩])
        [EmojiKey.custom ⟨false, "wa~ve", 1099511627776⟩]
      = [EmojiKey.custom ⟨false, "wa~ve", 1099511627776⟩]
    ∧ EmojiKey.custom ⟨false, "wa~ve", 1099511627776⟩
        ≠ EmojiKey.custom ⟨false, "wave", 1099511627776⟩ := by
  refine ⟨by decide, by decide, by decide⟩

/-- C8 (amended): `resolve_emojis` returns a parallel list of the same
length — the pointwise image of `resolve_one` — where a standard-emoji
key resolves to itself; a custom-emoji key that matches the library's
parse pattern (nonempty ASCII-alphanumeric/underscore name, 13–20-digit
id) and whose id is found in the registry resolves to the registry
entry's current display form; and every other custom-emoji key resolves
to the raw stored key without error — both when its id is absent from
the registry and when the key falls outside the parse pattern, even if
its id is registered. -/
theorem C8_resolver (g : Guild) (keys : List EmojiKey) :
    (resolve_emojis g keys).length = keys.length
    ∧ resolve_emojis g keys = keys.map (resolve_one g)
    ∧ (∀ s : String, resolve_one g (EmojiKey.unicode s) = EmojiKey.unicode s)
    ∧ (∀ e r, parsesAsCustom e = true → g.get_emoji e.id = some r →
        resolve_one g (EmojiKey.custom e) = EmojiKey.custom r)
    ∧ (∀ e, g.get_emoji e.id = none →
        resolve_one g (EmojiKey.custom e) = EmojiKey.custom e)
    ∧ (∀ e, parsesAsCustom e = false →
        resolve_one g (EmojiKey.custom e) = EmojiKey.custom e) := by
  refine ⟨?_, resolve_emojis_eq_map g keys, ?_, ?_, ?_, ?_⟩
  · rw [resolve_emojis_eq_map]
    simp
  · intro s
    rfl
  · intro e r hparse hfind
    have hc : (10 : Nat) ^ 12 ≤ e.id := by
      have h := hparse
      simp only [parsesAsCustom, Bool.and_eq_true, decide_eq_true_eq] at h
      exact h.1.2
    have hne : e.id ≠ 0 := by
      intro h0
      rw [h0] at hc
      norm_num at hc
    simp [resolve_one, PartialEmoji.from_str, hparse, PartialEmoji.is_custom_emoji, hne, hfind]
  · intro e hfind
    cases hp : parsesAsCustom e
    · simp [resolve_one, PartialEmoji.from_str, hp, PartialEmoji.is_custom_emoji]
    · by_cases h0 : e.id ≠ 0 <;>
        simp [resolve_one, PartialEmoji.from_str, hp, PartialEmoji.is_custom_emoji, h0, hfind]
  · intro e hparse
    simp [resolve_one, PartialEmoji.from_str, hparse, PartialEmoji.is_custom_emoji]

theorem C8_resolver_witness :
    parsesAsCustom ⟨false, "hello", 1099511627776⟩ = true
    ∧ (Guild.mk [] [⟨false, "wave", 1099511627776⟩]).get_emoji
        (⟨false, "hello", 1099511627776⟩ : CustomEmoji).id
        = some ⟨false, "wave", 1099511627776⟩
    ∧ resolve_one (Guild.mk [] [⟨false, "wave", 1099511627776⟩])
        (EmojiKey.custom ⟨false, "hello", 1099511627776⟩)
        = EmojiKey.custom ⟨false, "wave", 1099511627776⟩ :=
  ⟨by decide, by decide,
   (C8_resolver (Guild.mk [] [⟨false, "wave", 1099511627776⟩]) []).2.2.2.1
     ⟨false, "hello", 1099511627776⟩ ⟨false, "wave", 1099511627776⟩
     (by decide) (by decide)⟩

/-- C9: the final frequency map does not depend on the order messages
are processed in — any permutation of the message multiset yields a map
with identical counts on every key — the scan over channels is the same
fold over the concatenation of the readable channels' messages (so any
interleaving across channels counts alike), and a message with no emoji
and no reactions leaves the map unchanged. -/
theorem C9_order_independent (ms1 ms2 : List Message) (h : ms1.Perm ms2) :
    (∀ k, (process_messages [] ms1).find k = (process_messages [] ms2).find k)
    ∧ (∀ c : Counter, processMessage c emptyMessage = c)
    ∧ (∀ channels : List Channel,
        collect_emoji_counts channels
          = process_messages []
              (((channels.filter (fun ch => ch.canRead)).map Channel.messages).flatten)) := by
  refine ⟨?_, fun c => rfl, fun channels => collect_eq_process_join channels⟩
  intro k
  rw [process_messages_find, process_messages_find]
  have hs := List.Perm.sum_eq (h.map (fun m => msgDelta m k))
  omega

theorem C9_order_independent_witness :
    ([⟨⟨["😀"], []⟩, []⟩, ⟨⟨[], []⟩, [⟨EmojiKey.unicode "😂", 3⟩]⟩] : List Message).Perm
        [⟨⟨[], []⟩, [⟨EmojiKey.unicode "😂", 3⟩]⟩, ⟨⟨["😀"], []⟩, []⟩]
    ∧ ∀ k,
        (process_messages []
          [⟨⟨["😀"], []⟩, []⟩, ⟨⟨[], []⟩, [⟨EmojiKey.unicode "😂", 3⟩]⟩]).find k
        = (process_messages []
            [⟨⟨[], []⟩, [⟨EmojiKey.unicode "😂", 3⟩]⟩, ⟨⟨["😀"], []⟩, []⟩]).find k :=
  ⟨by decide,
   (C9_order_independent
     [⟨⟨["😀"], []⟩, []⟩, ⟨⟨[], []⟩, [⟨EmojiKey.unicode "😂", 3⟩]⟩]
     [⟨⟨[], []⟩, [⟨EmojiKey.unicode "😂", 3⟩]⟩, ⟨⟨["😀"], []⟩, []⟩] (by decide)).1⟩

/-- C10: an argument that equals a valid timeframe label only after
stripping surrounding whitespace is rejected by the leaderboard command
with the usage reply and no scan event, because the validity decision is
the unstripped membership test on the raw argument — even though
`parse_timeframe` strips the argument and its dictionary lookup finds the
valid entry, returning that entry's timeframe value. -/
theorem C10_raw_membership_test (g : Guild) (label : String)
    (h1 : label ∉ TIMEFRAME_KEYS) (h2 : pyStrip label ∈ TIMEFRAME_KEYS) :
    emoji_leaderboard g label = [Event.sent OutMsg.usage]
    ∧ Event.scanStarted ∉ emoji_leaderboard g label
    ∧ ∃ p ∈ TIMEFRAME_LABELS, p.1 = pyStrip label ∧ parse_timeframe label = p.2 := by
  have hmain : emoji_leaderboard g label = [Event.sent OutMsg.usage] := by
    simp [emoji_leaderboard, h1]
  refine ⟨hmain, by rw [hmain]; simp, ?_⟩
  simp only [TIMEFRAME_KEYS] at h2
  obtain ⟨p, hp, hfst⟩ := List.mem_map.mp h2
  have hsome : (TIMEFRAME_LABELS.find? (fun q => q.1 = pyStrip label)).isSome := by
    refine List.find?_isSome.mpr ⟨p, hp, ?_⟩
    simp [hfst]
  obtain ⟨q, hq⟩ := Option.isSome_iff_exists.mp hsome
  refine ⟨q, List.mem_of_find?_eq_some hq, ?_, ?_⟩
  · simpa using List.find?_some hq
  · simp [parse_timeframe, hq]

theorem C10_raw_membership_test_witness :
    (" 1주" ∉ TIMEFRAME_KEYS)
    ∧ (pyStrip " 1주" ∈ TIMEFRAME_KEYS)
    ∧ emoji_leaderboard (Guild.mk [] []) " 1주" = [Event.sent OutMsg.usage] :=
  ⟨by decide, by decide,
   (C10_raw_membership_test (Guild.mk [] []) " 1주" (by decide) (by decide)).1⟩
